/-
  Verification of the ambihue core against its specification.

  Shallow embedding of the Python sources:
    - src/colors.py           (Color)
    - src/color_mixer.py      (ColorMixer: apply_tv_data, num_colors,
                               get_average_color, is_all_black)
    - src/main.py             (AmbiHueMain: _read_tv, run-loop black handling,
                               position reassignment, _exit)
    - src/ambilight_tv.py     (AmbilightTV.get_ambilight_json failure taxonomy)
    - src/tv_discovery.py     (PhilipsTVPairing.grant_pairing, handle_tv_pairing)
    - src/config_loader.py    (ConfigLoader singleton __new__)
    - ambihue.py              (_assign_default_positions)

  Python machine integers are modelled as ℤ/ℕ; Python float arithmetic in the
  position-partition code is modelled as exact rational arithmetic over ℚ, and
  Python's builtin round (banker's rounding, half to even) is modelled by
  pyRound below.  Fallible code is modelled with Except, where the error side
  carries whatever an uncaught Python exception would leave behind.
-/
import Mathlib

namespace AmbiHue

/-! ## colors.py: Color -/

/-- `Color` from src/colors.py: a mutable triple of Python ints (not clamped). -/
structure Color where
  red : ℤ
  green : ℤ
  blue : ℤ
deriving Repr, DecidableEq

/-! ## color_mixer.py: ColorMixer state -/

/-- The mutable state of a `ColorMixer`: `self._colors` and
`self._num_of_left_right_colors` (initialised to `[]` and `-1`). -/
structure MixerState where
  colors : List Color
  numLR : ℤ
deriving Repr, DecidableEq

/-- `ColorMixer.__init__`. -/
def mixerInit : MixerState := { colors := [], numLR := -1 }

/-- The `layer1` object of a TV payload: three ordered mappings whose values
are RGB triples.  A `none` field models the key being absent (a malformed
payload); the iteration order of each mapping is kept as list order. -/
structure TVLayer where
  left : Option (List Color)
  top : Option (List Color)
  right : Option (List Color)
deriving Repr, DecidableEq

/-- A TV payload (`data` in `apply_tv_data`); `layer1 = none` models a payload
missing the `layer1` key. -/
structure TVData where
  layer1 : Option TVLayer
deriving Repr, DecidableEq

/-- `ColorMixer.apply_tv_data` from src/color_mixer.py lines 23–36.

The method first executes `self._colors = []` and
`self._num_of_left_right_colors = 0`, then walks `data["layer1"]["left"]`,
`...["top"]`, `...["right"]` in that order, appending as it goes (right in
reversed order).  A missing key raises an uncaught `KeyError` at the
corresponding access; the `.error` constructor carries the state the mixer is
left in at that point (the writes already performed are not rolled back). -/
def applyTVData (_st : MixerState) (data : TVData) : Except MixerState MixerState :=
  -- `self._colors = []; self._num_of_left_right_colors = 0` happen first
  let st0 : MixerState := { colors := [], numLR := 0 }
  match data.layer1 with
  | none => .error st0                         -- KeyError "layer1"
  | some layer =>
    match layer.left with
    | none => .error st0                       -- KeyError "left"
    | some ls =>
      -- left loop: append each left value, increment the counter
      let st1 : MixerState := { colors := ls, numLR := (ls.length : ℤ) }
      match layer.top with
      | none => .error st1                     -- KeyError "top"
      | some ts =>
        -- top loop: append each top value
        let st2 : MixerState := { colors := ls ++ ts, numLR := (ls.length : ℤ) }
        match layer.right with
        | none => .error st2                   -- KeyError "right"
        | some rs =>
          -- right loop: append right values in reversed order
          .ok { colors := ls ++ ts ++ rs.reverse, numLR := (ls.length : ℤ) }
  -- st is the state before the call; it is discarded by the very first write,
  -- so it does not occur on the right-hand side.

/-- `ColorMixer.num_colors` (`count()` in the spec): `len(self._colors)`. -/
def numColors (st : MixerState) : ℕ := st.colors.length

/-- The valid-position test `0 <= pos < len(self._colors)` from
`get_average_color`. -/
def posInRange (n : ℕ) (p : ℤ) : Bool := decide (0 ≤ p) && decide (p < (n : ℤ))

/-- `ColorMixer.get_average_color` from src/color_mixer.py lines 45–71:
early returns for empty `positions`, empty buffer and no valid position;
otherwise component sums accumulated in a running `Color` followed by Python
floor division `//` (`Int.fdiv`) by the number of valid positions. -/
def getAverageColor (colors : List Color) (positions : List ℤ) : Color :=
  if positions.isEmpty then ⟨0, 0, 0⟩
  else if colors.isEmpty then ⟨0, 0, 0⟩
  else
    let valid := positions.filter (posInRange colors.length)
    if valid.isEmpty then ⟨0, 0, 0⟩
    else
      let c := valid.foldl
        (fun acc p =>
          let col := colors.getD p.toNat ⟨0, 0, 0⟩
          ⟨acc.red + col.red, acc.green + col.green, acc.blue + col.blue⟩)
        (⟨0, 0, 0⟩ : Color)
      ⟨Int.fdiv c.red (valid.length : ℤ),
       Int.fdiv c.green (valid.length : ℤ),
       Int.fdiv c.blue (valid.length : ℤ)⟩

/-- The method `get_average_color` as a state transformer: it reads
`self._colors` and assigns no attribute of `self`, so the embedding returns
the state it was given. -/
def getAverageColorS (st : MixerState) (positions : List ℤ) : Color × MixerState :=
  (getAverageColor st.colors positions, st)

/-- `ColorMixer.is_all_black` from src/color_mixer.py lines 73–88. -/
def isAllBlack (st : MixerState) (threshold : ℤ := 15) : Bool :=
  st.colors.all fun c =>
    decide (c.red ≤ threshold) && decide (c.green ≤ threshold) &&
      decide (c.blue ≤ threshold)

/-! ### Specification-side definitions for the averaging claims -/

/-- The spec's description of `query`: filter positions to `[0, count())`,
return black when nothing is left, else the componentwise integer-floor mean
over the valid positions. -/
def specAverageColor (colors : List Color) (positions : List ℤ) : Color :=
  let valid := positions.filter (posInRange colors.length)
  if valid.isEmpty then ⟨0, 0, 0⟩
  else
    ⟨Int.fdiv ((valid.map fun p => (colors.getD p.toNat ⟨0, 0, 0⟩).red).sum) (valid.length : ℤ),
     Int.fdiv ((valid.map fun p => (colors.getD p.toNat ⟨0, 0, 0⟩).green).sum) (valid.length : ℤ),
     Int.fdiv ((valid.map fun p => (colors.getD p.toNat ⟨0, 0, 0⟩).blue).sum) (valid.length : ℤ)⟩

/-- The multiset mean: the same computation as a function of the multiset of
requested positions, witnessing that `query` is a multiset mean. -/
def multisetAverageColor (colors : List Color) (m : Multiset ℤ) : Color :=
  let valid := m.filter (fun p => posInRange colors.length p = true)
  if valid.card = 0 then ⟨0, 0, 0⟩
  else
    ⟨Int.fdiv ((valid.map fun p => (colors.getD p.toNat ⟨0, 0, 0⟩).red).sum) (valid.card : ℤ),
     Int.fdiv ((valid.map fun p => (colors.getD p.toNat ⟨0, 0, 0⟩).green).sum) (valid.card : ℤ),
     Int.fdiv ((valid.map fun p => (colors.getD p.toNat ⟨0, 0, 0⟩).blue).sum) (valid.card : ℤ)⟩

/-! ### Helper lemmas about the averaging code -/

/-- With an empty buffer no position passes the range test. -/
lemma posInRange_zero (p : ℤ) : posInRange 0 p = false := by
  simp only [posInRange, Bool.and_eq_false_imp, decide_eq_true_eq, decide_eq_false_iff_not]
  intro h
  omega

/-- The running-`Color` accumulation in `get_average_color` computes the three
componentwise sums. -/
lemma foldl_color_acc (colors : List Color) (ps : List ℤ) (a : Color) :
    ps.foldl
        (fun acc p =>
          let col := colors.getD p.toNat ⟨0, 0, 0⟩
          (⟨acc.red + col.red, acc.green + col.green, acc.blue + col.blue⟩ : Color)) a
      = ⟨a.red + (ps.map fun p => (colors.getD p.toNat ⟨0, 0, 0⟩).red).sum,
         a.green + (ps.map fun p => (colors.getD p.toNat ⟨0, 0, 0⟩).green).sum,
         a.blue + (ps.map fun p => (colors.getD p.toNat ⟨0, 0, 0⟩).blue).sum⟩ := by
  induction ps generalizing a with
  | nil => simp
  | cons x xs ih =>
    rw [List.foldl_cons, ih]
    simp [add_assoc]

/-- The code's `get_average_color` agrees with the spec's description
(filter, then floor mean) on every input. -/
lemma getAverageColor_eq_spec (colors : List Color) (ps : List ℤ) :
    getAverageColor colors ps = specAverageColor colors ps := by
  unfold getAverageColor specAverageColor
  by_cases hp : ps.isEmpty
  · rw [List.isEmpty_iff] at hp
    subst hp
    simp
  · by_cases hc : colors.isEmpty
    · rw [List.isEmpty_iff] at hc
      subst hc
      simp [posInRange_zero, List.filter_eq_nil_iff]
    · by_cases hv : (ps.filter (posInRange colors.length)).isEmpty
      · simp [hp, hc, hv]
      · have hp2 : ps.isEmpty = false := by simpa using hp
        have hc2 : colors.isEmpty = false := by simpa using hc
        have hv2 : (ps.filter (posInRange colors.length)).isEmpty = false := by
          simpa using hv
        simp only [hp2, hc2, hv2, Bool.false_eq_true, if_false]
        rw [foldl_color_acc]
        simp

/-- The spec-side mean is a function of the multiset of positions only. -/
lemma specAverageColor_coe (colors : List Color) (ps : List ℤ) :
    specAverageColor colors ps = multisetAverageColor colors ↑ps := by
  unfold specAverageColor multisetAverageColor
  simp [Multiset.filter_coe, List.isEmpty_iff, List.length_eq_zero]

/-! ### Claim theorems for the ColorMixer -/

/-- C1: after `apply_tv_data` on a well-formed payload the canonical zone
sequence is the left values in order, then the top values in order, then the
right values reversed, and `num_colors` is `len(left)+len(top)+len(right)`;
the concrete scenario payload yields
`[(0,0,0),(10,0,0),(20,0,0),(0,0,10)]` with count 4. -/
theorem apply_canonical_order (st : MixerState) (ls ts rs : List Color) :
    applyTVData st ⟨some ⟨some ls, some ts, some rs⟩⟩
      = .ok { colors := ls ++ ts ++ rs.reverse, numLR := (ls.length : ℤ) }
    ∧ numColors { colors := ls ++ ts ++ rs.reverse, numLR := (ls.length : ℤ) }
      = ls.length + ts.length + rs.length
    ∧ applyTVData mixerInit
        ⟨some ⟨some [⟨0, 0, 0⟩], some [⟨10, 0, 0⟩, ⟨20, 0, 0⟩], some [⟨0, 0, 10⟩]⟩⟩
      = .ok { colors := [⟨0, 0, 0⟩, ⟨10, 0, 0⟩, ⟨20, 0, 0⟩, ⟨0, 0, 10⟩], numLR := 1 }
    ∧ numColors { colors := [⟨0, 0, 0⟩, ⟨10, 0, 0⟩, ⟨20, 0, 0⟩, ⟨0, 0, 10⟩], numLR := 1 }
      = 4 := by
  refine ⟨rfl, ?_, rfl, rfl⟩
  simp [numColors]
  omega

/-- C2: `get_average_color` is total and equals the spec's filtered floor
mean on every input; it returns black on an empty position list, on an empty
buffer, and whenever no position is in range. -/
theorem query_total_floor_mean (colors : List Color) (ps : List ℤ) :
    getAverageColor colors ps = specAverageColor colors ps
    ∧ getAverageColor colors [] = ⟨0, 0, 0⟩
    ∧ getAverageColor [] ps = ⟨0, 0, 0⟩
    ∧ (ps.filter (posInRange colors.length) = [] →
        getAverageColor colors ps = ⟨0, 0, 0⟩) := by
  refine ⟨getAverageColor_eq_spec colors ps, rfl, ?_, ?_⟩
  · rw [getAverageColor_eq_spec]
    simp [specAverageColor, posInRange_zero, List.filter_eq_nil_iff]
  · intro h
    rw [getAverageColor_eq_spec]
    simp [specAverageColor, h]

/-- C2 witness: a buffer of one color with both positions out of range gives
black. -/
theorem query_total_floor_mean_witness :
    getAverageColor [⟨1, 2, 3⟩] [5, -1] = ⟨0, 0, 0⟩ :=
  (query_total_floor_mean [⟨1, 2, 3⟩] [5, -1]).2.2.2 (by decide)

/-- C3 counterexample: a payload whose `layer1.top` is missing makes
`apply_tv_data` fail, but the buffer is left holding the freshly appended
left value, not the previous contents — the previous buffer is not retained
and the partial overwrite is visible. -/
theorem apply_malformed_not_atomic_cex :
    applyTVData { colors := [⟨1, 2, 3⟩], numLR := 1 }
        ⟨some ⟨some [⟨4, 5, 6⟩], none, none⟩⟩
      = .error { colors := [⟨4, 5, 6⟩], numLR := 1 }
    ∧ ([(⟨4, 5, 6⟩ : Color)] ≠ [(⟨1, 2, 3⟩ : Color)]) := by
  exact ⟨rfl, by decide⟩

/-- C3 amended: on a payload missing the expected keys/shape,
`apply_tv_data` fails, but the buffer is first cleared and then holds exactly
the zones appended before the failure point (nothing, the left values, or
left followed by top) — the previous buffer is never retained. -/
theorem apply_malformed_partial_state (st : MixerState) (ls ts : List Color)
    (t r : Option (List Color)) :
    applyTVData st ⟨none⟩ = .error { colors := [], numLR := 0 }
    ∧ applyTVData st ⟨some ⟨none, t, r⟩⟩ = .error { colors := [], numLR := 0 }
    ∧ applyTVData st ⟨some ⟨some ls, none, r⟩⟩
      = .error { colors := ls, numLR := (ls.length : ℤ) }
    ∧ applyTVData st ⟨some ⟨some ls, some ts, none⟩⟩
      = .error { colors := ls ++ ts, numLR := (ls.length : ℤ) } :=
  ⟨rfl, rfl, rfl, rfl⟩

/-- C9: `get_average_color` is the componentwise floor mean over the multiset
of requested positions (duplicates counted with multiplicity), hence invariant
under permutation of the position list, and the method leaves the mixer state
unchanged. -/
theorem query_multiset_mean_no_mutation (st : MixerState) (p q : List ℤ)
    (h : p.Perm q) :
    getAverageColorS st p = (multisetAverageColor st.colors ↑p, st)
    ∧ (getAverageColorS st p).1 = (getAverageColorS st q).1
    ∧ (getAverageColorS st p).2 = st := by
  have hmean : ∀ r : List ℤ,
      getAverageColor st.colors r = multisetAverageColor st.colors ↑r := by
    intro r
    rw [getAverageColor_eq_spec, specAverageColor_coe]
  refine ⟨?_, ?_, rfl⟩
  · simp [getAverageColorS, hmean]
  · simp only [getAverageColorS, hmean]
    rw [Multiset.coe_eq_coe.mpr h]

/-- C9 witness: with duplicated positions in two different orders the result
agrees with the multiset mean (here `(4+8+8) // 3 = 6`), and the state is
untouched. -/
theorem query_multiset_mean_no_mutation_witness :
    getAverageColorS { colors := [⟨4, 0, 0⟩, ⟨8, 0, 0⟩], numLR := 0 } [0, 1, 1]
      = (multisetAverageColor [⟨4, 0, 0⟩, ⟨8, 0, 0⟩] ↑[(0 : ℤ), 1, 1],
          { colors := [⟨4, 0, 0⟩, ⟨8, 0, 0⟩], numLR := 0 })
    ∧ (getAverageColorS { colors := [⟨4, 0, 0⟩, ⟨8, 0, 0⟩], numLR := 0 } [0, 1, 1]).1
      = (getAverageColorS { colors := [⟨4, 0, 0⟩, ⟨8, 0, 0⟩], numLR := 0 } [1, 0, 1]).1
    ∧ (getAverageColorS { colors := [⟨4, 0, 0⟩, ⟨8, 0, 0⟩], numLR := 0 } [0, 1, 1]).2
      = { colors := [⟨4, 0, 0⟩, ⟨8, 0, 0⟩], numLR := 0 } :=
  query_multiset_mean_no_mutation
    { colors := [⟨4, 0, 0⟩, ⟨8, 0, 0⟩], numLR := 0 } [0, 1, 1] [1, 0, 1] (by decide)

/-! ## ambilight_tv.py / main.py: the device read path -/

/-- The possible outcomes of the HTTP GET in `get_ambilight_raw` /
`get_ambilight_json` (src/ambilight_tv.py lines 97–121), by the branch taken:
network failure, body that fails `json.loads`, body that parses to a non-dict
JSON value, or a JSON object. -/
inductive TVResponse where
  | unreachable
  | badJson
  | jsonNonDict
  | jsonDict (d : TVData)
deriving Repr, DecidableEq

/-- The Python exception classes that can escape `get_ambilight_json`:
`RuntimeError` (wrapping `httpx.RequestError`), `json.JSONDecodeError`, and
`AssertionError` (from `assert isinstance(data, dict)`). -/
inductive PyExn where
  | runtimeError
  | jsonDecodeError
  | assertionError
deriving Repr, DecidableEq

/-- `AmbilightTV.get_ambilight_json`: network errors surface as
`RuntimeError`, undecodable bodies as `JSONDecodeError`, decodable non-object
bodies as `AssertionError`; otherwise the parsed dict is returned. -/
def getAmbilightJson : TVResponse → Except PyExn TVData
  | .unreachable => .error .runtimeError
  | .badJson => .error .jsonDecodeError
  | .jsonNonDict => .error .assertionError
  | .jsonDict d => .ok d

/-- The connectivity-tracking state of `AmbiHueMain` used by `_read_tv`:
`self._tv_error_cnt` and `self._tv_is_online`. -/
structure ReadState where
  errCnt : ℤ
  online : Bool
deriving Repr, DecidableEq

/-- How one `_read_tv` call ends when no exception escapes it: with data,
with the `None` sentinel, or by terminating the process (`self._exit(10)`
runs `sys.exit(10)`). -/
inductive ReadOutcome where
  | data (d : TVData)
  | noData
  | exit (code : ℤ)
deriving Repr, DecidableEq

/-- `AmbiHueMain._read_tv` from src/main.py lines 59–93.  The `except` clause
catches exactly `(JSONDecodeError, RuntimeError)`; any other exception
(here: `AssertionError`) propagates with the connectivity state untouched,
which the `.error` side models.  On a caught failure the counter is
incremented, the link is marked offline, and if the configured threshold is
positive and exceeded the process exits with code 10. -/
def readTV (threshold : ℤ) (st : ReadState) (resp : TVResponse) :
    Except PyExn (ReadState × ReadOutcome) :=
  match getAmbilightJson resp with
  | .ok d => .ok ({ errCnt := 0, online := true }, .data d)
  | .error .jsonDecodeError | .error .runtimeError =>
    let cnt := st.errCnt + 1
    let st' : ReadState := { errCnt := cnt, online := false }
    if 0 < threshold ∧ threshold < cnt then .ok (st', .exit 10)
    else .ok (st', .noData)
  | .error e => .error e

/-- A sequence of `_read_tv` calls (one per controller tick), threading the
connectivity state; stops at the first escaping exception. -/
def readTVSeq (threshold : ℤ) (st : ReadState) :
    List TVResponse → Except PyExn (ReadState × List ReadOutcome)
  | [] => .ok (st, [])
  | r :: rs =>
    match readTV threshold st r with
    | .error e => .error e
    | .ok (st', out) =>
      match readTVSeq threshold st' rs with
      | .error e => .error e
      | .ok (st'', outs) => .ok (st'', out :: outs)

/-- Following the spec's failure taxonomy (§4.3, §7): a poll failure is a
`MalformedPayload` when it is a "JSON/shape error" — the body fails to parse
as JSON, or parses but does not have the expected object shape. -/
def specMalformedPayload : TVResponse → Bool
  | .badJson => true
  | .jsonNonDict => true
  | _ => false

/-! ### Claim theorems for the device read path -/

/-- C5: with a positive configured threshold, `_read_tv` terminates the
process (exit status 10, non-zero) exactly when a caught poll failure pushes
the consecutive-failure counter above the threshold; a successful poll resets
the counter to 0; three consecutive failures under threshold 10 never
terminate and the counter is 0 again after the next success. -/
theorem error_threshold_fail_fast (thr : ℤ) (st : ReadState) (r : TVResponse)
    (hthr : 0 < thr) :
    ((∃ st', readTV thr st r = .ok (st', .exit 10)) ↔
        ((r = .unreachable ∨ r = .badJson) ∧ thr < st.errCnt + 1))
    ∧ (∀ st' c, readTV thr st r = .ok (st', .exit c) → c = 10 ∧ c ≠ 0)
    ∧ (∀ d, r = .jsonDict d →
        readTV thr st r = .ok ({ errCnt := 0, online := true }, .data d))
    ∧ readTVSeq 10 { errCnt := 0, online := true }
        [.unreachable, .unreachable, .unreachable, .jsonDict ⟨none⟩]
      = .ok ({ errCnt := 0, online := true },
          [.noData, .noData, .noData, .data ⟨none⟩]) := by
  refine ⟨?_, ?_, ?_, rfl⟩
  · cases r with
    | unreachable =>
      by_cases h : thr < st.errCnt + 1 <;>
        simp [readTV, getAmbilightJson, hthr, h]
    | badJson =>
      by_cases h : thr < st.errCnt + 1 <;>
        simp [readTV, getAmbilightJson, hthr, h]
    | jsonNonDict => simp [readTV, getAmbilightJson]
    | jsonDict d => simp [readTV, getAmbilightJson]
  · intro st' c hok
    cases r with
    | unreachable =>
      by_cases h : thr < st.errCnt + 1 <;>
        simp_all [readTV, getAmbilightJson, hthr, h] <;> omega
    | badJson =>
      by_cases h : thr < st.errCnt + 1 <;>
        simp_all [readTV, getAmbilightJson, hthr, h] <;> omega
    | jsonNonDict => simp_all [readTV, getAmbilightJson]
    | jsonDict d => simp_all [readTV, getAmbilightJson]
  · intro d hd
    subst hd
    rfl

/-- C5 witness: at threshold 10 with counter 10, one more failure exits with
code 10; a success resets the counter. -/
theorem error_threshold_fail_fast_witness :
    ((∃ st', readTV 10 { errCnt := 10, online := false } .unreachable
        = .ok (st', .exit 10)) ↔
      ((TVResponse.unreachable = .unreachable ∨ TVResponse.unreachable = .badJson)
        ∧ (10 : ℤ) < 10 + 1))
    ∧ (∀ st' c, readTV 10 { errCnt := 10, online := false } .unreachable
        = .ok (st', .exit c) → c = 10 ∧ c ≠ 0)
    ∧ (∀ d, TVResponse.unreachable = .jsonDict d →
        readTV 10 { errCnt := 10, online := false } .unreachable
          = .ok ({ errCnt := 0, online := true }, .data d))
    ∧ readTVSeq 10 { errCnt := 0, online := true }
        [.unreachable, .unreachable, .unreachable, .jsonDict ⟨none⟩]
      = .ok ({ errCnt := 0, online := true },
          [.noData, .noData, .noData, .data ⟨none⟩]) :=
  error_threshold_fail_fast 10 { errCnt := 10, online := false } .unreachable
    (by decide)

/-- C6 counterexample: a response that is valid JSON but not an object is a
MalformedPayload in the spec's taxonomy (a shape error), yet `_read_tv` lets
the resulting `AssertionError` propagate instead of reporting the `None`
sentinel. -/
theorem transient_error_propagates_cex :
    specMalformedPayload .jsonNonDict = true
    ∧ readTV 10 { errCnt := 0, online := true } .jsonNonDict
        = .error .assertionError :=
  ⟨rfl, rfl⟩

/-- C6 amended: for a network-level `Unreachable` failure or a JSON-decode
`MalformedPayload` failure no exception propagates past `_read_tv`: the poll
reports the `None` sentinel, except when the accumulated error-threshold
condition escalates to process termination; but a decodable non-object
payload (a shape error) escapes as an uncaught `AssertionError`. -/
theorem transient_error_propagation (thr : ℤ) (st : ReadState) (r : TVResponse)
    (h : r = .unreachable ∨ r = .badJson) :
    readTV thr st r
      = .ok ({ errCnt := st.errCnt + 1, online := false },
          if 0 < thr ∧ thr < st.errCnt + 1 then .exit 10 else .noData)
    ∧ readTV thr st .jsonNonDict = .error .assertionError := by
  constructor
  · rcases h with h | h <;> subst h <;>
      · by_cases hc : 0 < thr ∧ thr < st.errCnt + 1 <;>
          simp [readTV, getAmbilightJson, hc]
  · rfl

/-- C6 amended witness: one unreachable poll at counter 0, threshold 10 is
reported as the `None` sentinel with the counter incremented. -/
theorem transient_error_propagation_witness :
    readTV 10 { errCnt := 0, online := true } .unreachable
      = .ok ({ errCnt := 0 + 1, online := false },
          if 0 < (10 : ℤ) ∧ (10 : ℤ) < 0 + 1 then .exit 10 else .noData)
    ∧ readTV 10 { errCnt := 0, online := true } .jsonNonDict
        = .error .assertionError :=
  transient_error_propagation 10 { errCnt := 0, online := true } .unreachable
    (Or.inl rfl)

/-! ## main.py: the run-loop black-screen handling

`H` is the type of the live streaming handle (`HueEntertainmentGroupKit`);
the controller only holds, drops (`del self._hue; self._hue = None`) or
creates it, so it stays abstract here. -/

/-- The fields of `AmbiHueMain` the black-screen branch reads and writes:
`self._hue`, `self._black_since` and `self._tv_has_content`.  Wall-clock
timestamps are rationals (seconds). -/
structure ControllerState (H : Type) where
  hue : Option H
  blackSince : Option ℚ
  tvHasContent : Bool
deriving Repr, DecidableEq

/-- src/main.py lines 161–188: the branch of one `run`-loop tick taken when
`is_all_black()` returned true.  `now` is the tick's `time.time()`,
`timeout` is `self._black_screen_timeout_s`, and `probe` is what
`self._tv.get_powerstate()` would report.

Modelled from the spec: `get_powerstate` is called at src/main.py line 173
but is absent from src/ambilight_tv.py, so per spec §6 ("Power-state probe
(consumed): returns a device power-state label") its result is modelled as an
input: `some s` is a reported label, `none` stands for a Python-falsy result
(`None` or an empty label), the case `if powerstate and ...` guards against.

Returns the new controller state and whether the power-state probe was
queried this tick. -/
def blackTick {H : Type} (st : ControllerState H) (now timeout : ℚ)
    (probe : Option String) : ControllerState H × Bool :=
  -- transition to black: record the timestamp the screen went black
  let st1 := if st.tvHasContent
    then { st with tvHasContent := false, blackSince := some now }
    else st
  -- `if self._hue is not None and self._black_since is not None:`
  match st1.hue, st1.blackSince with
  | some _, some t0 =>
    let dur := now - t0
    if 5 ≤ dur then
      -- `powerstate = self._tv.get_powerstate()`
      match probe with
      | some ps =>
        if ps ≠ "On" then
          -- `del self._hue; self._hue = None; self._black_since = None; continue`
          ({ st1 with hue := none, blackSince := none }, true)
        else if timeout ≤ dur then
          ({ st1 with hue := none, blackSince := none }, true)
        else (st1, true)
      | none =>
        -- falsy powerstate: fall through to the timeout fallback
        if timeout ≤ dur then
          ({ st1 with hue := none, blackSince := none }, true)
        else (st1, true)
    else
      if timeout ≤ dur then
        ({ st1 with hue := none, blackSince := none }, false)
      else (st1, false)
  | _, _ => (st1, false)

/-- C4: while a session is Active and the screen has been black for at least
5 seconds, the tick queries the device power state, and a reported state
other than "On" tears the session down at once (handle released, black-since
timestamp cleared); independently, black persisting past the configured
timeout tears the session down as a fallback. -/
theorem black_session_teardown {H : Type} (st : ControllerState H)
    (now t0 timeout : ℚ) (probe : Option String)
    (hhue : st.hue.isSome = true) (hb : st.blackSince = some t0)
    (hc : st.tvHasContent = false) :
    (5 ≤ now - t0 →
      (blackTick st now timeout probe).2 = true
      ∧ (∀ s, probe = some s → s ≠ "On" →
          (blackTick st now timeout probe).1.hue = none
          ∧ (blackTick st now timeout probe).1.blackSince = none))
    ∧ (timeout ≤ now - t0 →
        (blackTick st now timeout probe).1.hue = none
        ∧ (blackTick st now timeout probe).1.blackSince = none) := by
  obtain ⟨h, hh⟩ := Option.isSome_iff_exists.mp hhue
  simp only [blackTick, hc, hh, hb, Bool.false_eq_true, if_false]
  constructor
  · intro h5
    rw [if_pos h5]
    cases probe with
    | none =>
      refine ⟨?_, ?_⟩
      · by_cases ht : timeout ≤ now - t0 <;> simp [ht]
      · intro s hs
        exact absurd hs (by simp)
    | some s =>
      refine ⟨?_, ?_⟩
      · by_cases hs : s = "On"
        · subst hs
          by_cases ht : timeout ≤ now - t0 <;> simp [ht]
        · simp [hs]
      · intro s' hs' hne
        rw [Option.some_inj] at hs'
        subst hs'
        simp [hne]
  · intro ht
    by_cases h5 : 5 ≤ now - t0
    · rw [if_pos h5]
      cases probe with
      | none => simp [ht]
      | some s =>
        by_cases hs : s = "On"
        · subst hs
          simp [ht]
        · simp [hs]
    · rw [if_neg h5]
      simp [ht]

/-- C4 witness: an active session (handle `0`), black since t=0, at t=10 with
a 30s timeout and a reported "Standby" power state: the probe is queried and
the session is torn down. -/
theorem black_session_teardown_witness :
    (blackTick (H := ℕ) ⟨some 0, some 0, false⟩ 10 30 (some "Standby")).2 = true
    ∧ (blackTick (H := ℕ) ⟨some 0, some 0, false⟩ 10 30 (some "Standby")).1.hue
        = none
    ∧ (blackTick (H := ℕ) ⟨some 0, some 0, false⟩ 10 30 (some "Standby")).1.blackSince
        = none := by
  have h := black_session_teardown (H := ℕ) ⟨some 0, some 0, false⟩ 10 0 30
    (some "Standby") rfl rfl rfl
  have h5 : (5 : ℚ) ≤ 10 - 0 := by norm_num
  obtain ⟨hq, himp⟩ := h.1 h5
  obtain ⟨h1, h2⟩ := himp "Standby" rfl (by decide)
  exact ⟨hq, h1, h2⟩

/-! ## tv_discovery.py: pairing grant and its orchestration -/

/-- The pairing state produced by `request_pin_display` and consumed by
`grant_pairing`: `auth_key`, `timestamp` and the device descriptor (of which
only `id` matters to the grant result). -/
structure PairingSavedState where
  authKey : String
  timestamp : String
  deviceId : String
deriving Repr, DecidableEq

/-- How the spec classifies the two `RuntimeError`s that `grant_pairing`
raises: "Invalid PIN code or expired auth key" on HTTP 401, "TV pairing
grant failed" otherwise. -/
inductive GrantError where
  | invalidPin
  | grantFailed
deriving Repr, DecidableEq

/-- The outcome of the `pair/grant` HTTP POST: a success response, an error
status (for which `raise_for_status` raises `httpx.HTTPStatusError` with that
code), or any other exception (network failure, bad body, ...). -/
inductive HttpResult where
  | success
  | statusError (code : ℕ)
  | otherFailure
deriving Repr, DecidableEq

/-- `PhilipsTVPairing.grant_pairing` from src/tv_discovery.py lines 293–354:
on success returns `(device_id, auth_key)`; on `HTTPStatusError` with status
401 raises the invalid-PIN `RuntimeError`; on any other status error or any
other exception raises the grant-failed `RuntimeError`. -/
def grantPairing (st : PairingSavedState) (resp : HttpResult) :
    Except GrantError (String × String) :=
  match resp with
  | .success => .ok (st.deviceId, st.authKey)
  | .statusError code =>
    if code = 401 then .error .invalidPin else .error .grantFailed
  | .otherFailure => .error .grantFailed

/-- The phase-2 branch of `handle_tv_pairing` (src/tv_discovery.py lines
677–696): a PIN is configured and a saved pairing state with a non-empty
`auth_key` was loaded.  `grant_pairing` is attempted; on success the
persisted state is cleared and the credentials returned; on `RuntimeError`
the persisted state is cleared and `("__PIN_REQUIRED__", "")` signals the
caller that a fresh PIN must be requested.  The second component of the
result is the persisted pairing state after the call. -/
def handlePairingPhase2 (saved : PairingSavedState) (resp : HttpResult) :
    (String × String) × Option PairingSavedState :=
  match grantPairing saved resp with
  | .ok cred => (cred, none)            -- _clear_pairing_state()
  | .error _ => (("__PIN_REQUIRED__", ""), none)  -- _clear_pairing_state()

/-! ### Claim theorem for pairing -/

/-- C8: `grant_pairing` answers HTTP 401 with `InvalidPin` and returns no
credential pair; any other grant failure is `GrantFailed`; and on any failed
grant along the orchestration path the persisted pairing state is cleared and
the caller is signalled (`"__PIN_REQUIRED__"`) that a fresh PIN must be
requested. -/
theorem grant_pairing_errors (st : PairingSavedState) (resp : HttpResult)
    (code : ℕ) (hcode : code ≠ 401) :
    grantPairing st (.statusError 401) = .error .invalidPin
    ∧ (∀ cred, grantPairing st (.statusError 401) ≠ .ok cred)
    ∧ grantPairing st (.statusError code) = .error .grantFailed
    ∧ grantPairing st .otherFailure = .error .grantFailed
    ∧ (∀ e, grantPairing st resp = .error e →
        handlePairingPhase2 st resp = (("__PIN_REQUIRED__", ""), none)) := by
  refine ⟨rfl, by simp [grantPairing], ?_, rfl, ?_⟩
  · simp [grantPairing, hcode]
  · intro e he
    unfold handlePairingPhase2
    rw [he]

/-- C8 witness: a wrong PIN (HTTP 401) against a concrete saved state fails
with `InvalidPin`, other statuses fail with `GrantFailed`, and the
orchestration path clears the state and signals `__PIN_REQUIRED__`. -/
theorem grant_pairing_errors_witness :
    grantPairing ⟨"key", "ts", "dev"⟩ (.statusError 401) = .error .invalidPin
    ∧ (∀ cred, grantPairing ⟨"key", "ts", "dev"⟩ (.statusError 401) ≠ .ok cred)
    ∧ grantPairing ⟨"key", "ts", "dev"⟩ (.statusError 500) = .error .grantFailed
    ∧ grantPairing ⟨"key", "ts", "dev"⟩ .otherFailure = .error .grantFailed
    ∧ (∀ e, grantPairing ⟨"key", "ts", "dev"⟩ (.statusError 401) = .error e →
        handlePairingPhase2 ⟨"key", "ts", "dev"⟩ (.statusError 401)
          = (("__PIN_REQUIRED__", ""), none)) :=
  grant_pairing_errors ⟨"key", "ts", "dev"⟩ (.statusError 401) 500 (by decide)

/-! ## config_loader.py: the ConfigLoader singleton -/

/-- The parsed YAML configuration; its contents are irrelevant to the
singleton behaviour, only identity matters. -/
structure ConfigData where
  raw : String
deriving Repr, DecidableEq

/-- A `ConfigLoader` instance: `_config_data` is `none` until `_load`
assigns it (Python sets `cls._instance` before `_load` runs). -/
structure CLInstance where
  configData : Option ConfigData
deriving Repr, DecidableEq

/-- `ConfigLoader.__new__` from src/config_loader.py lines 19–23.  `cls` is
the class attribute `_instance`, `fs` maps a path to the loaded-and-validated
configuration (or a load/validation error), `p` is `config_path`.  Returns
the constructor result, the class attribute afterwards, and the list of paths
actually read from disk during the call.  When `_instance` is already set the
path argument is ignored and nothing is read; when `_load` raises,
`_instance` keeps the half-initialised instance assigned just before. -/
def configLoaderNew (cls : Option CLInstance) (fs : String → Except String ConfigData)
    (p : String) : Except String CLInstance × Option CLInstance × List String :=
  match cls with
  | some inst => (.ok inst, some inst, [])
  | none =>
    match fs p with
    | .ok cfg =>
      let inst : CLInstance := ⟨some cfg⟩
      (.ok inst, some inst, [p])
    | .error e => (.error e, some ⟨none⟩, [p])

/-! ### Claim theorem for the singleton -/

/-- C10: once a first construction `ConfigLoader(p1)` has succeeded, every
later construction — with any path and even a changed file system — returns
the very same instance, still holding the configuration loaded from `p1`,
leaves the class state unchanged, and reads no file. -/
theorem config_loader_singleton (fs fs' : String → Except String ConfigData)
    (p1 p2 : String) (inst : CLInstance) (cls : Option CLInstance)
    (hfirst : configLoaderNew none fs p1 = (.ok inst, cls, [p1])) :
    cls = some inst
    ∧ (∀ cfg, fs p1 = .ok cfg → inst.configData = some cfg)
    ∧ configLoaderNew cls fs' p2 = (.ok inst, some inst, []) := by
  unfold configLoaderNew at hfirst
  cases hfs : fs p1 with
  | ok cfg =>
    rw [hfs] at hfirst
    simp only [Prod.mk.injEq, Except.ok.injEq] at hfirst
    obtain ⟨h1, h2, -⟩ := hfirst
    subst h1
    subst h2
    refine ⟨rfl, fun c hc => ?_, rfl⟩
    cases hc
    rfl
  | error e =>
    rw [hfs] at hfirst
    simp at hfirst

/-- C10 witness: after a successful first load of "a.yaml", constructing with
"b.yaml" returns the same instance and reads nothing. -/
theorem config_loader_singleton_witness :
    (some (⟨some ⟨"cfg-a"⟩⟩ : CLInstance) = some ⟨some ⟨"cfg-a"⟩⟩)
    ∧ (∀ cfg, (fun q => if q = "a.yaml" then Except.ok ⟨"cfg-a"⟩
          else Except.error "missing") "a.yaml" = .ok cfg →
        (⟨some ⟨"cfg-a"⟩⟩ : CLInstance).configData = some cfg)
    ∧ configLoaderNew (some ⟨some ⟨"cfg-a"⟩⟩)
        (fun _ => Except.error "fs changed") "b.yaml"
      = (.ok ⟨some ⟨"cfg-a"⟩⟩, some ⟨some ⟨"cfg-a"⟩⟩, []) :=
  config_loader_singleton
    (fun q => if q = "a.yaml" then Except.ok ⟨"cfg-a"⟩ else Except.error "missing")
    (fun _ => Except.error "fs changed") "a.yaml" "b.yaml"
    ⟨some ⟨"cfg-a"⟩⟩ (some ⟨some ⟨"cfg-a"⟩⟩) (by simp [configLoaderNew])

/-! ## ambihue.py / main.py: the default even zone partition

`_assign_default_positions` (ambihue.py lines 330–350) and the in-loop
reassignment block (src/main.py lines 209–218) run the same algorithm:
`chunk_size = total_positions / num_lights` and light `i` gets
`list(range(int(round(i * chunk_size)), int(round((i+1) * chunk_size))))`.
Python float arithmetic is modelled as exact rational arithmetic and
Python's builtin `round` (nearest, ties to even) as `pyRound`. -/

/-- Python's builtin `round` on a rational: nearest integer, ties to the
even neighbour. -/
def pyRound (q : ℚ) : ℤ :=
  let n := ⌊q⌋
  let frac := q - n
  if frac < 1/2 then n
  else if 1/2 < frac then n + 1
  else if n % 2 = 0 then n else n + 1

/-- Python's `list(range(a, b))` over machine ints: `[a, a+1, ..., b-1]`,
empty when `b ≤ a`. -/
def pyRange (a b : ℤ) : List ℤ :=
  List.map (fun k : ℕ => a + (k : ℤ)) (List.range (b - a).toNat)

/-- `_assign_default_positions` from ambihue.py lines 330–350 (and the
identical reassignment in src/main.py lines 209–218): an empty result for a
non-positive light count, otherwise one `range(round(i*chunk),
round((i+1)*chunk))` per light. -/
def assignDefaultPositions (numLights : ℤ) (totalPositions : ℤ) : List (List ℤ) :=
  if numLights ≤ 0 then []
  else
    let chunk : ℚ := (totalPositions : ℚ) / (numLights : ℚ)
    (List.range numLights.toNat).map fun i : ℕ =>
      pyRange (pyRound ((i : ℚ) * chunk)) (pyRound (((i : ℚ) + 1) * chunk))

/-! ### Helper lemmas about pyRound and pyRange -/

/-- `round` of an integer is that integer. -/
lemma pyRound_intCast (n : ℤ) : pyRound (n : ℚ) = n := by
  simp only [pyRound]
  norm_num

/-- `round` never goes below the floor. -/
lemma pyRound_floor_le (q : ℚ) : ⌊q⌋ ≤ pyRound q := by
  simp only [pyRound]
  split_ifs <;> omega

/-- `round` never exceeds the floor by more than one. -/
lemma pyRound_le_floor_succ (q : ℚ) : pyRound q ≤ ⌊q⌋ + 1 := by
  simp only [pyRound]
  split_ifs <;> omega

/-- `round` is within one half below. -/
lemma pyRound_ge (q : ℚ) : q - 1/2 ≤ (pyRound q : ℚ) := by
  have hf : (⌊q⌋ : ℚ) ≤ q := Int.floor_le q
  have hc : q < ⌊q⌋ + 1 := Int.lt_floor_add_one q
  simp only [pyRound]
  split_ifs with h1 h2 h3 <;> push_cast <;> linarith

/-- `round` is within one half above. -/
lemma pyRound_le (q : ℚ) : (pyRound q : ℚ) ≤ q + 1/2 := by
  have hf : (⌊q⌋ : ℚ) ≤ q := Int.floor_le q
  have hc : q < ⌊q⌋ + 1 := Int.lt_floor_add_one q
  simp only [pyRound]
  split_ifs with h1 h2 h3 <;> push_cast <;> linarith

/-- `round` is monotone. -/
lemma pyRound_mono {q r : ℚ} (h : q ≤ r) : pyRound q ≤ pyRound r := by
  by_cases hf : ⌊q⌋ = ⌊r⌋
  · have hfr : q - ⌊q⌋ ≤ r - ⌊r⌋ := by
      rw [← hf]
      linarith
    simp only [pyRound]
    split_ifs <;> (try omega) <;> (try linarith)
  · have hlt : ⌊q⌋ < ⌊r⌋ := lt_of_le_of_ne (Int.floor_le_floor h) hf
    have h1 := pyRound_le_floor_succ q
    have h2 := pyRound_floor_le r
    omega

lemma pyRange_length (a b : ℤ) : (pyRange a b).length = (b - a).toNat := by
  rw [pyRange, List.length_map, List.length_range]

/-- Adjacent integer ranges concatenate. -/
lemma pyRange_append {a b c : ℤ} (h1 : a ≤ b) (h2 : b ≤ c) :
    pyRange a b ++ pyRange b c = pyRange a c := by
  unfold pyRange
  have hsum : (c - a).toNat = (b - a).toNat + (c - b).toNat := by omega
  rw [hsum, List.range_add, List.map_append, List.map_map]
  congr 1
  apply List.map_congr_left
  intro k _
  simp only [Function.comp_apply]
  omega

/-- Consecutive ranges along a monotone boundary sequence flatten to one
range. -/
lemma pyRange_flatten (b : ℕ → ℤ) (mono : ∀ i j, i ≤ j → b i ≤ b j) (K : ℕ) :
    ((List.range K).map (fun i => pyRange (b i) (b (i + 1)))).flatten
      = pyRange (b 0) (b K) := by
  induction K with
  | zero => simp [pyRange]
  | succ k ih =>
    rw [List.range_succ, List.map_append, List.flatten_append, ih]
    simp only [List.map_cons, List.map_nil, List.flatten_cons, List.flatten_nil,
      List.append_nil]
    exact pyRange_append (mono 0 k (Nat.zero_le k)) (mono k (k + 1) (Nat.le_succ k))

/-- The boundary of the partition before light `i`:
`round(i * totalPositions / numLights)`. -/
def partBoundary (L N : ℤ) (i : ℕ) : ℤ := pyRound ((i : ℚ) * ((N : ℚ) / (L : ℚ)))

lemma partBoundary_zero (L N : ℤ) : partBoundary L N 0 = 0 := by
  have h : ((0 : ℕ) : ℚ) * ((N : ℚ) / (L : ℚ)) = ((0 : ℤ) : ℚ) := by push_cast; ring
  rw [partBoundary, h, pyRound_intCast]

lemma partBoundary_last (L N : ℤ) (hL : 0 < L) : partBoundary L N L.toNat = N := by
  have hL0 : (L : ℚ) ≠ 0 := by exact_mod_cast hL.ne'
  have h : ((L.toNat : ℕ) : ℚ) * ((N : ℚ) / (L : ℚ)) = ((N : ℤ) : ℚ) := by
    have hcast : ((L.toNat : ℕ) : ℚ) = (L : ℚ) := by
      exact_mod_cast congrArg (fun z : ℤ => (z : ℚ)) (Int.toNat_of_nonneg hL.le)
    rw [hcast]
    field_simp
  rw [partBoundary, h, pyRound_intCast]

lemma partBoundary_mono (L N : ℤ) (hL : 0 < L) (hN : 0 ≤ N) :
    ∀ i j : ℕ, i ≤ j → partBoundary L N i ≤ partBoundary L N j := by
  intro i j hij
  apply pyRound_mono
  have hchunk : 0 ≤ (N : ℚ) / (L : ℚ) := by
    apply div_nonneg
    · exact_mod_cast hN
    · exact_mod_cast hL.le
  exact mul_le_mul_of_nonneg_right (by exact_mod_cast hij) hchunk

/-- Each slice of the partition is within one zone of the ideal `N / L`. -/
lemma partBoundary_diff (L N : ℤ) (i : ℕ) :
    |((partBoundary L N (i + 1) - partBoundary L N i : ℤ) : ℚ)
        - (N : ℚ) / (L : ℚ)| ≤ 1 := by
  have h1 := pyRound_ge (((i + 1 : ℕ) : ℚ) * ((N : ℚ) / (L : ℚ)))
  have h2 := pyRound_le (((i + 1 : ℕ) : ℚ) * ((N : ℚ) / (L : ℚ)))
  have h3 := pyRound_ge ((i : ℚ) * ((N : ℚ) / (L : ℚ)))
  have h4 := pyRound_le ((i : ℚ) * ((N : ℚ) / (L : ℚ)))
  have hrel : ((i : ℚ) + 1) * ((N : ℚ) / (L : ℚ))
      = (i : ℚ) * ((N : ℚ) / (L : ℚ)) + (N : ℚ) / (L : ℚ) := by ring
  unfold partBoundary
  rw [abs_le]
  push_cast at h1 h2 h3 h4 ⊢
  constructor <;> linarith [hrel]

/-- The positive-light-count case of `_assign_default_positions`, written
with `partBoundary`. -/
lemma assign_map (L N : ℤ) (hL : 0 < L) :
    assignDefaultPositions L N
      = (List.range L.toNat).map
          (fun i => pyRange (partBoundary L N i) (partBoundary L N (i + 1))) := by
  unfold assignDefaultPositions
  rw [if_neg (not_le.mpr hL)]
  show (List.range L.toNat).map
      (fun i : ℕ => pyRange (pyRound ((i : ℚ) * ((N : ℚ) / (L : ℚ))))
        (pyRound (((i : ℚ) + 1) * ((N : ℚ) / (L : ℚ)))))
    = _
  refine List.map_congr_left fun i _ => ?_
  unfold partBoundary
  have h : ((i : ℚ) + 1) = ((i + 1 : ℕ) : ℚ) := by push_cast; ring
  rw [h]

/-! ### Claim theorem for the default partition -/

/-- C7: for every zone count `N ≥ 1` and light count `L ≥ 1`, the default
even partition gives light `i` the zone range
`round(i·N/L) .. round((i+1)·N/L)`; the lists concatenate, in light order, to
exactly the contiguous range `[0, N)` (so they cover it exactly once with no
overlap), each list's length is within 1 of `N/L`, and for `N = 4`, `L = 2`
the result is `[0,1]` and `[2,3]`. -/
theorem default_partition (L N : ℤ) (hL : 1 ≤ L) (hN : 1 ≤ N) :
    (assignDefaultPositions L N).length = L.toNat
    ∧ (∀ i : ℕ, i < L.toNat →
        (assignDefaultPositions L N).getD i []
          = pyRange (pyRound ((i : ℚ) * ((N : ℚ) / (L : ℚ))))
              (pyRound (((i : ℚ) + 1) * ((N : ℚ) / (L : ℚ)))))
    ∧ (assignDefaultPositions L N).flatten = pyRange 0 N
    ∧ (∀ l ∈ assignDefaultPositions L N,
        |(l.length : ℚ) - (N : ℚ) / (L : ℚ)| ≤ 1)
    ∧ assignDefaultPositions 2 4 = [[0, 1], [2, 3]] := by
  have hL0 : (0 : ℤ) < L := hL
  have hN0 : (0 : ℤ) ≤ N := by omega
  have hmono := partBoundary_mono L N hL0 hN0
  refine ⟨?_, ?_, ?_, ?_, ?_⟩
  · rw [assign_map L N hL0]
    simp
  · intro i hi
    rw [assign_map L N hL0]
    rw [List.getD_eq_getElem?_getD]
    rw [List.getElem?_map]
    rw [List.getElem?_range hi]
    simp only [Option.map_some', Option.getD_some]
    unfold partBoundary
    have h : ((i : ℚ) + 1) = ((i + 1 : ℕ) : ℚ) := by push_cast; ring
    rw [h]
  · rw [assign_map L N hL0, pyRange_flatten _ hmono, partBoundary_zero,
      partBoundary_last L N hL0]
  · intro l hl
    rw [assign_map L N hL0] at hl
    obtain ⟨i, _, rfl⟩ := List.mem_map.mp hl
    rw [pyRange_length]
    have hge : partBoundary L N i ≤ partBoundary L N (i + 1) :=
      hmono i (i + 1) (Nat.le_succ i)
    have hcast : (((partBoundary L N (i + 1) - partBoundary L N i).toNat : ℕ) : ℚ)
        = ((partBoundary L N (i + 1) - partBoundary L N i : ℤ) : ℚ) := by
      have := Int.toNat_of_nonneg (by omega :
        (0 : ℤ) ≤ partBoundary L N (i + 1) - partBoundary L N i)
      exact_mod_cast congrArg (fun z : ℤ => (z : ℚ)) this
    rw [hcast]
    exact partBoundary_diff L N i
  · have b0 : partBoundary 2 4 0 = 0 := partBoundary_zero 2 4
    have b1 : partBoundary 2 4 1 = 2 := by
      unfold partBoundary
      have h : ((1 : ℕ) : ℚ) * (((4 : ℤ) : ℚ) / ((2 : ℤ) : ℚ)) = ((2 : ℤ) : ℚ) := by
        norm_num
      rw [h, pyRound_intCast]
    have b2 : partBoundary 2 4 2 = 4 := by
      unfold partBoundary
      have h : ((2 : ℕ) : ℚ) * (((4 : ℤ) : ℚ) / ((2 : ℤ) : ℚ)) = ((4 : ℤ) : ℚ) := by
        norm_num
      rw [h, pyRound_intCast]
    have p1 : pyRange 0 2 = [0, 1] := by decide
    have p2 : pyRange 2 4 = [2, 3] := by decide
    rw [assign_map 2 4 (by norm_num)]
    rw [show (2 : ℤ).toNat = 2 from rfl]
    norm_num [b0, b1, b2, p1, p2, List.range_succ]

/-- C7 witness: at `N = 4`, `L = 2` the partition has two lists, flattens to
`[0, 4)`, and is `[[0,1],[2,3]]`. -/
theorem default_partition_witness :
    (assignDefaultPositions 2 4).length = (2 : ℤ).toNat
    ∧ (assignDefaultPositions 2 4).flatten = pyRange 0 4
    ∧ assignDefaultPositions 2 4 = [[0, 1], [2, 3]] := by
  have h := default_partition 2 4 (by norm_num) (by norm_num)
  exact ⟨h.1, h.2.2.1, h.2.2.2.2⟩

end AmbiHue
